import Mathlib

/-!
Verification of the feedback-app core (src/src/index.ts) against its
natural-language specification.

The worker's POST branch parses the model output, writes one row to the
feedback table, and redirects; the GET branch computes aggregate sentiment
counts by substring matching.  JavaScript strings are embedded as Lean
`String` (a wrapper around `List Char`); `String.prototype.split('|')`,
`String.prototype.trim()` and `String.prototype.includes` are embedded as
executable functions over the character list.  The store and the model
call are external collaborators; their success or failure is passed in
explicitly, and a thrown exception that escapes the handler is modelled
as the `raised` outcome.
-/

namespace FeedbackApp

/-- JavaScript whitespace characters stripped by `trim()` (the ASCII part;
the inputs in this development contain no exotic Unicode whitespace). -/
def isJsWS (c : Char) : Bool :=
  c == ' ' || c == '\t' || c == '\n' || c == '\r' || c == '\x0b' || c == '\x0c'

/-- `trim()` on the character list: drop whitespace from both ends. -/
def trimChars (s : List Char) : List Char :=
  ((s.dropWhile isJsWS).reverse.dropWhile isJsWS).reverse

/-- Embedding of `rawText.trim()`. -/
def jsTrim (s : String) : String :=
  String.mk (trimChars s.data)

/-- Embedding of `rawText.split('|')` on the character list: JavaScript
`split` with a one-character separator cuts at every occurrence of the
separator, so `"".split('|') = [""]`, `"a|b|c".split('|') = ["a","b","c"]`,
`"|".split('|') = ["",""]`. -/
def splitOnPipe : List Char → List (List Char)
  | [] => [[]]
  | c :: cs =>
    if c = '|' then [] :: splitOnPipe cs
    else
      match splitOnPipe cs with
      | [] => [[c]]
      | p :: ps => (c :: p) :: ps

/-- Embedding of `rawText.split('|')` at the `String` level. -/
def jsSplitPipe (s : String) : List String :=
  (splitOnPipe s.data).map String.mk

/-- The parse step of the POST branch (src/src/index.ts lines 32-36):

    const parts = rawText.split('|');
    const sentiment = parts[0] ? parts[0].trim() : "Neutral";
    const summary   = parts[1] ? parts[1].trim() : rawText;

`parts[i]` is `undefined` (falsy) past the end of the array, and the empty
string is also falsy, so each fallback fires when the part is absent or the
empty string, before any trimming. -/
def parse (raw : String) : String × String :=
  let parts := jsSplitPipe raw
  let sentiment :=
    match parts.head? with
    | some p0 => if p0 = "" then "Neutral" else jsTrim p0
    | none => "Neutral"
  let summary :=
    match parts.get? 1 with
    | some p1 => if p1 = "" then raw else jsTrim p1
    | none => raw
  (sentiment, summary)

/-- A row written to the feedback table by the POST branch (all three bound
values are present strings there). -/
structure FeedbackRecord where
  customerText : String
  sentiment : String
  summary : String
deriving DecidableEq, Repr

/-- Result of `env.AI.run`: either the call completes with a result object
whose `response` field may be absent (`none`) or a string, or the call
throws. -/
inductive AIResult where
  | ok (response : Option String)
  | err
deriving DecidableEq, Repr

/-- Result of one `env.DB...run()` insert: completes or throws. -/
inductive StoreResult where
  | ok
  | err
deriving DecidableEq, Repr

/-- How the POST handler finishes: the 303 redirect of line 52, or an
exception escaping the handler (the insert inside the `catch` block is not
itself guarded, so its failure propagates). -/
inductive Resp where
  | redirect
  | raised
deriving DecidableEq, Repr

/-- Observable outcome of one POST request: whether `env.AI.run` was
invoked, the list of rows successfully inserted, and how the handler
finished. -/
structure IngestResult where
  modelCalled : Bool
  written : List FeedbackRecord
  resp : Resp
deriving DecidableEq, Repr

/-- The POST branch of the worker (src/src/index.ts lines 13-53).
`text?` is `formData.get('feedback')`: `none` when the field is absent,
otherwise the submitted string; `if (text)` skips `null` and `""`.
`primary` is the outcome of the insert at lines 39-41, `fallback` the
outcome of the insert inside the `catch` block at lines 45-47. -/
def ingest (text? : Option String) (ai : AIResult)
    (primary fallback : StoreResult) : IngestResult :=
  match text? with
  | none => ⟨false, [], .redirect⟩
  | some text =>
    if text = "" then ⟨false, [], .redirect⟩
    else
      match ai with
      | .ok response =>
        let rawText := response.getD ""
        let (sentiment, summary) := parse rawText
        match primary with
        | .ok => ⟨true, [⟨text, sentiment, summary⟩], .redirect⟩
        | .err =>
          match fallback with
          | .ok => ⟨true, [⟨text, "Error", "AI analysis failed"⟩], .redirect⟩
          | .err => ⟨true, [], .raised⟩
      | .err =>
        match fallback with
        | .ok => ⟨true, [⟨text, "Error", "AI analysis failed"⟩], .redirect⟩
        | .err => ⟨true, [], .raised⟩

/-- `sub` occurs at the start of `s` (the head comparison of a substring
scan). -/
def leadMatch : List Char → List Char → Bool
  | [], _ => true
  | _ :: _, [] => false
  | c :: cs, d :: ds => c == d && leadMatch cs ds

/-- Embedding of `s.includes(sub)` for JavaScript strings: `sub` occurs
somewhere in `s` as a contiguous substring. -/
def jsIncludes (sub : List Char) : List Char → Bool
  | [] => leadMatch sub []
  | c :: rest => leadMatch sub (c :: rest) || jsIncludes sub rest

/-- `String`-level `s.includes(sub)`. -/
def jsIncludesS (s sub : String) : Bool :=
  jsIncludes sub.data s.data

/-- A row read back by the GET branch (`SELECT * FROM feedback`): every
column except the integer key is a nullable TEXT column, so the seed rows
(src/unnamed/part_000), inserted with `customer_text` only, have `none`
sentiment and summary. -/
structure DBRow where
  id : Nat
  customer_text : Option String
  sentiment : Option String
  summary : Option String
deriving DecidableEq, Repr

/-- The aggregate counts of the GET branch (src/src/index.ts lines 60-62):

    results.filter((r) => (r.sentiment || '').includes('Positive')).length

and likewise for `'Negative'` and `'Neutral'`; a `null` sentiment is
coalesced to `''` first. -/
def summarize (results : List DBRow) : Nat × Nat × Nat :=
  ( (results.filter (fun r => jsIncludesS (r.sentiment.getD "") "Positive")).length
  , (results.filter (fun r => jsIncludesS (r.sentiment.getD "") "Negative")).length
  , (results.filter (fun r => jsIncludesS (r.sentiment.getD "") "Neutral")).length )

/-- The three seed rows of src/unnamed/part_000: `INSERT INTO feedback
(customer_text) VALUES (...)` three times, leaving sentiment and summary
NULL. -/
def seedRows : List DBRow :=
  [ ⟨1, some "The login page keeps crashing when I use Firefox. It is super frustrating!", none, none⟩
  , ⟨2, some "I love the new dark mode, it looks amazing. Great job team!", none, none⟩
  , ⟨3, some "The API documentation is outdated and very confusing.", none, none⟩ ]

/-! ### Spec-side characterizations of the split

These definitions are not translations of code; they characterize "the text
before the first `|`" and "the segment between the first and second `|`"
independently of `splitOnPipe`, for use in theorem statements. -/

/-- The characters strictly after the first `'|'` of `s`, or `none` when `s`
has no `'|'`. -/
def restAfterPipe (s : List Char) : Option (List Char) :=
  match s.dropWhile (fun c => c != '|') with
  | [] => none
  | _ :: rest => some rest

/-- The text before the first `'|'` of `raw` (all of `raw` when no `'|'`
occurs). -/
def part0 (raw : String) : String :=
  String.mk (raw.data.takeWhile (fun c => c != '|'))

/-- The segment strictly between the first and second `'|'` of `raw` (up to
the end when no second `'|'` occurs), or `none` when `raw` has no `'|'`. -/
def part1? (raw : String) : Option String :=
  (restAfterPipe raw.data).map (fun rest => String.mk (rest.takeWhile (fun c => c != '|')))

/-- `s` contains `sub` as a contiguous substring. -/
def ContainsSub (s sub : String) : Prop :=
  ∃ pre post : String, s = pre ++ sub ++ post

/-! ### Lemmas about `splitOnPipe` -/

lemma splitOnPipe_ne_nil (s : List Char) : splitOnPipe s ≠ [] := by
  cases s with
  | nil => simp [splitOnPipe]
  | cons c cs =>
    by_cases hc : c = '|'
    · simp [splitOnPipe, hc]
    · simp only [splitOnPipe, if_neg hc]
      cases splitOnPipe cs <;> simp

lemma splitOnPipe_eq (s : List Char) :
    splitOnPipe s = s.takeWhile (fun c => c != '|') ::
      ((restAfterPipe s).elim [] splitOnPipe) := by
  induction s with
  | nil => simp [splitOnPipe, restAfterPipe]
  | cons c cs ih =>
    by_cases hc : c = '|'
    · simp [splitOnPipe, restAfterPipe, hc, List.takeWhile_cons, List.dropWhile_cons]
    · have hb : (c != '|') = true := by simp [hc]
      simp only [splitOnPipe, if_neg hc, restAfterPipe, List.takeWhile_cons,
        List.dropWhile_cons, hb, if_pos trivial]
      rw [ih]
      simp [restAfterPipe]

lemma splitOnPipe_head (s : List Char) :
    (splitOnPipe s).head? = some (s.takeWhile (fun c => c != '|')) := by
  rw [splitOnPipe_eq]; rfl

lemma splitOnPipe_get1 (s : List Char) :
    (splitOnPipe s).get? 1 =
      (restAfterPipe s).map (fun rest => rest.takeWhile (fun c => c != '|')) := by
  rw [splitOnPipe_eq]
  cases restAfterPipe s with
  | none => rfl
  | some rest =>
    simp only [Option.elim, Option.map, List.get?_cons_succ]
    rw [splitOnPipe_eq rest]
    rfl

lemma splitOnPipe_no_pipe {x : List Char} (hx : '|' ∉ x) :
    splitOnPipe x = [x] := by
  induction x with
  | nil => simp [splitOnPipe]
  | cons c cs ih =>
    have hc : c ≠ '|' := fun h => hx (h ▸ List.mem_cons_self c cs)
    have hcs : '|' ∉ cs := fun h => hx (List.mem_cons_of_mem c h)
    simp only [splitOnPipe, if_neg hc, ih hcs]

lemma splitOnPipe_append {x : List Char} (y : List Char) (hx : '|' ∉ x) :
    splitOnPipe (x ++ '|' :: y) = x :: splitOnPipe y := by
  induction x with
  | nil => simp [splitOnPipe]
  | cons c cs ih =>
    have hc : c ≠ '|' := fun h => hx (h ▸ List.mem_cons_self c cs)
    have hcs : '|' ∉ cs := fun h => hx (List.mem_cons_of_mem c h)
    simp only [List.cons_append, splitOnPipe, if_neg hc, List.append_eq, ih hcs]

/-! ### Lemmas about `jsIncludes` -/

lemma leadMatch_iff (sub : List Char) : ∀ s : List Char,
    leadMatch sub s = true ↔ ∃ t, s = sub ++ t := by
  induction sub with
  | nil => intro s; simp [leadMatch]
  | cons c cs ih =>
    intro s
    cases s with
    | nil =>
      simp only [leadMatch, List.cons_append]
      constructor
      · intro h; exact absurd h (by simp)
      · rintro ⟨t, ht⟩; exact absurd ht (by simp)
    | cons d ds =>
      simp only [leadMatch, Bool.and_eq_true, beq_iff_eq, ih ds, List.cons_append,
        List.cons.injEq]
      constructor
      · rintro ⟨hcd, t, ht⟩; exact ⟨t, hcd.symm, ht⟩
      · rintro ⟨t, hdc, ht⟩; exact ⟨hdc.symm, t, ht⟩

lemma jsIncludes_iff (sub : List Char) : ∀ s : List Char,
    jsIncludes sub s = true ↔ ∃ pre post, s = pre ++ sub ++ post := by
  intro s
  induction s with
  | nil =>
    simp only [jsIncludes, leadMatch_iff]
    constructor
    · rintro ⟨t, ht⟩; exact ⟨[], t, by simpa using ht⟩
    · rintro ⟨pre, post, h⟩
      rcases List.append_eq_nil.1 h.symm with ⟨h1, h2⟩
      rcases List.append_eq_nil.1 h1 with ⟨h3, h4⟩
      exact ⟨[], by simp [h4]⟩
  | cons c rest ih =>
    constructor
    · intro h
      have h' : leadMatch sub (c :: rest) = true ∨ jsIncludes sub rest = true := by
        simpa [jsIncludes] using h
      rcases h' with h1 | h2
      · rcases (leadMatch_iff sub (c :: rest)).1 h1 with ⟨t, ht⟩
        exact ⟨[], t, by simpa using ht⟩
      · rcases ih.1 h2 with ⟨pre, post, hp⟩
        exact ⟨c :: pre, post, by simp [hp]⟩
    · rintro ⟨pre, post, hp⟩
      show (leadMatch sub (c :: rest) || jsIncludes sub rest) = true
      rw [Bool.or_eq_true]
      cases pre with
      | nil =>
        exact Or.inl ((leadMatch_iff sub (c :: rest)).2 ⟨post, by simpa using hp⟩)
      | cons p ps =>
        simp only [List.cons_append] at hp
        injection hp with hcp hrest
        exact Or.inr (ih.2 ⟨ps, post, hrest⟩)

lemma jsIncludesS_iff (s sub : String) : jsIncludesS s sub = true ↔ ContainsSub s sub := by
  rw [jsIncludesS, jsIncludes_iff]
  constructor
  · rintro ⟨pre, post, h⟩
    refine ⟨String.mk pre, String.mk post, ?_⟩
    apply String.ext
    simpa [String.data_append] using h
  · rintro ⟨pre, post, h⟩
    exact ⟨pre.data, post.data, by rw [h]; simp [String.data_append]⟩

instance decContainsSub (s sub : String) : Decidable (ContainsSub s sub) :=
  decidable_of_iff (jsIncludesS s sub = true) (jsIncludesS_iff s sub)

lemma jsIncludesS_eq_decide (s sub : String) :
    jsIncludesS s sub = decide (ContainsSub s sub) := by
  by_cases h : ContainsSub s sub
  · simp [h, (jsIncludesS_iff s sub).2 h]
  · have hne : jsIncludesS s sub ≠ true := fun ht => h ((jsIncludesS_iff s sub).1 ht)
    simp [h, Bool.eq_false_iff.2 hne]

/-! ### Parse structure at the `String` level -/

lemma jsSplitPipe_head (raw : String) : (jsSplitPipe raw).head? = some (part0 raw) := by
  rw [jsSplitPipe, List.head?_map, splitOnPipe_head]
  rfl

lemma jsSplitPipe_get1 (raw : String) : (jsSplitPipe raw).get? 1 = part1? raw := by
  rw [jsSplitPipe, List.get?_map, splitOnPipe_get1, part1?]
  cases restAfterPipe raw.data <;> rfl

/-! ### Claims C1-C3: the parse step -/

/-- C1 counterexample: `parse "A|B|C"` returns summary `"B"`, not `"B|C"` —
the text after the first `|` is re-split at the second `|` and the tail is
dropped, contrary to the claim. -/
theorem parse_multi_pipe_cex :
    (parse "A|B|C").2 = "B" ∧ (parse "A|B|C").2 ≠ "B|C" := by decide

/-- C1 (amended): for a raw string with two or more `|` characters the code
splits at every `|`; the summary comes from the segment strictly between
the first and second `|` only (trimmed when that segment is non-empty, the
full raw string when it is empty), and everything after the second `|` is
dropped, not kept in the summary. -/
theorem parse_summary_between_first_two_pipes (a b c : String)
    (ha : '|' ∉ a.data) (hb : '|' ∉ b.data) :
    (parse (a ++ "|" ++ b ++ "|" ++ c)).2 =
      if b = "" then a ++ "|" ++ b ++ "|" ++ c else jsTrim b := by
  have hdata : (a ++ "|" ++ b ++ "|" ++ c).data =
      a.data ++ '|' :: (b.data ++ '|' :: c.data) := by
    simp [String.data_append]
  have hsplit : splitOnPipe (a ++ "|" ++ b ++ "|" ++ c).data =
      a.data :: b.data :: splitOnPipe c.data := by
    rw [hdata, splitOnPipe_append _ ha, splitOnPipe_append _ hb]
  have hget : (jsSplitPipe (a ++ "|" ++ b ++ "|" ++ c)).get? 1 = some b := by
    rw [jsSplitPipe, List.get?_map, hsplit]
    rfl
  simp only [parse, hget]

/-- C1 amended witness at `a = "A"`, `b = "B"`, `c = "C"`. -/
theorem parse_summary_between_first_two_pipes_witness :
    '|' ∉ ("A" : String).data ∧ '|' ∉ ("B" : String).data ∧
    (parse ("A" ++ "|" ++ "B" ++ "|" ++ "C")).2 =
      if ("B" : String) = "" then "A" ++ "|" ++ "B" ++ "|" ++ "C" else jsTrim "B" :=
  ⟨by decide, by decide,
    parse_summary_between_first_two_pipes "A" "B" "C" (by decide) (by decide)⟩

/-- C2 counterexample: `parse "   "` returns sentiment `""`, not
`"Neutral"` — the truthiness test fires on the untrimmed part 0, so a
whitespace-only part 0 is trimmed to the empty string instead of falling
back to `"Neutral"`. -/
theorem parse_ws_sentiment_cex :
    (parse "   ").1 = "" ∧ (parse "   ").1 ≠ "Neutral" := by decide

/-- C2 (amended): the sentiment is part 0 (the text before the first `|`)
trimmed whenever part 0 is non-empty BEFORE trimming, and the literal
`"Neutral"` only when part 0 is the empty string (raw empty or raw starting
with `|`); a whitespace-only part 0 yields the empty-string sentiment. -/
theorem parse_sentiment_rule (raw : String) :
    (parse raw).1 = if part0 raw = "" then "Neutral" else jsTrim (part0 raw) := by
  simp only [parse, jsSplitPipe_head raw]

/-- C3 counterexample: `parse " Neutral |  "` returns summary `""`, not the
full raw string — part 1 is `"  "`, non-empty before trimming, so it is
trimmed to `""` rather than triggering the raw-text fallback. -/
theorem parse_summary_fallback_cex :
    parse " Neutral |  " = ("Neutral", "") ∧
    (parse " Neutral |  ").2 ≠ " Neutral |  " := by decide

/-- C3 (amended): the summary is part 1 (the segment strictly between the
first and second `|`) trimmed whenever part 1 is present and non-empty
BEFORE trimming, and the full untrimmed raw string when part 1 is absent or
the empty string; in particular `parse " Neutral |  " = ("Neutral", "")`. -/
theorem parse_summary_rule (raw : String) :
    (parse raw).2 =
      (part1? raw).elim raw (fun p1 => if p1 = "" then raw else jsTrim p1) := by
  simp only [parse, jsSplitPipe_get1 raw]
  cases part1? raw <;> rfl

/-! ### Claims C4-C7 and C9: the ingest pipeline -/

/-- C4 counterexample: with non-empty text, a failing model call and a
failing fallback insert, the handler finishes by raising — the caller does
not receive the 303 redirect, so the second failure is not swallowed. -/
theorem ingest_double_failure_cex :
    (ingest (some "hello") .err .ok .err).resp = .raised ∧
    (ingest (some "hello") .err .ok .err).resp ≠ .redirect := by decide

/-- C4 (amended): when the classification step fails, the caller receives
the normal 303 redirect exactly when the fallback sentinel write succeeds;
when that fallback write also fails, its failure propagates out of the
handler (the insert inside the catch block is not guarded), so the caller
does not receive a normal completion. -/
theorem ingest_fallback_resp (text : String) (h : text ≠ "") (p : StoreResult) :
    (ingest (some text) .err p .ok).resp = .redirect ∧
    (ingest (some text) .err p .err).resp = .raised := by
  constructor <;> simp [ingest, h]

/-- C4 amended witness at `text = "x"`. -/
theorem ingest_fallback_resp_witness :
    ("x" : String) ≠ "" ∧
    (ingest (some "x") .err .ok .ok).resp = .redirect ∧
    (ingest (some "x") .err .ok .err).resp = .raised :=
  ⟨by decide, (ingest_fallback_resp "x" (by decide) .ok).1,
    (ingest_fallback_resp "x" (by decide) .ok).2⟩

/-- C5: for every non-empty text, whenever the handler finishes with the
redirect, exactly one record was written; its customerText is the submitted
text and it carries either a parsed classification or the error
sentinel. -/
theorem ingest_writes_exactly_one (text : String) (ai : AIResult) (p f : StoreResult)
    (h : text ≠ "") (hr : (ingest (some text) ai p f).resp = .redirect) :
    ∃ r : FeedbackRecord, (ingest (some text) ai p f).written = [r] ∧
      r.customerText = text ∧
      ((∃ raw : String, (r.sentiment, r.summary) = parse raw) ∨
        (r.sentiment = "Error" ∧ r.summary = "AI analysis failed")) := by
  cases ai with
  | ok response =>
    rcases hps : parse (response.getD "") with ⟨s, m⟩
    cases p with
    | ok =>
      refine ⟨⟨text, s, m⟩, ?_, rfl, Or.inl ⟨response.getD "", by rw [hps]⟩⟩
      simp [ingest, h, hps]
    | err =>
      cases f with
      | ok =>
        refine ⟨⟨text, "Error", "AI analysis failed"⟩, ?_, rfl, Or.inr ⟨rfl, rfl⟩⟩
        simp [ingest, h, hps]
      | err =>
        exact absurd hr (by simp [ingest, h, hps])
  | err =>
    cases f with
    | ok =>
      refine ⟨⟨text, "Error", "AI analysis failed"⟩, ?_, rfl, Or.inr ⟨rfl, rfl⟩⟩
      simp [ingest, h]
    | err =>
      exact absurd hr (by simp [ingest, h])

/-- C5 witness at `text = "hi"` with a successful model call and store. -/
theorem ingest_writes_exactly_one_witness :
    ("hi" : String) ≠ "" ∧
    (ingest (some "hi") (.ok (some "Positive | Great")) .ok .ok).resp = .redirect ∧
    ∃ r : FeedbackRecord,
      (ingest (some "hi") (.ok (some "Positive | Great")) .ok .ok).written = [r] ∧
      r.customerText = "hi" ∧
      ((∃ raw : String, (r.sentiment, r.summary) = parse raw) ∨
        (r.sentiment = "Error" ∧ r.summary = "AI analysis failed")) :=
  ⟨by decide, by decide,
    ingest_writes_exactly_one "hi" (.ok (some "Positive | Great")) .ok .ok
      (by decide) (by decide)⟩

/-- C6: an absent or empty feedback field is a no-op on the store — no
model call, zero records written, and the caller still receives the normal
redirect. -/
theorem ingest_empty_or_absent_noop (ai : AIResult) (p f : StoreResult) :
    ingest none ai p f = ⟨false, [], .redirect⟩ ∧
    ingest (some "") ai p f = ⟨false, [], .redirect⟩ := by
  exact ⟨rfl, rfl⟩

/-- C7 counterexample: with text `"X"`, a failing model call and a failing
fallback insert, no record at all is written and the handler raises — the
failure is surfaced to the caller rather than contained. -/
theorem ingest_model_failure_cex :
    (ingest (some "X") .err .ok .err).written = [] ∧
    (ingest (some "X") .err .ok .err).resp = .raised := by decide

/-- C7 (amended): for every non-empty text, if the model call fails and the
fallback store write succeeds, the single record written has sentiment
exactly `"Error"`, summary exactly `"AI analysis failed"` and customerText
equal to the submitted text, and the caller receives the normal redirect;
if the fallback write also fails, the store failure propagates to the
caller. -/
theorem ingest_model_failure_sentinel (text : String) (h : text ≠ "") (p : StoreResult) :
    (ingest (some text) .err p .ok).written = [⟨text, "Error", "AI analysis failed"⟩] ∧
    (ingest (some text) .err p .ok).resp = .redirect := by
  constructor <;> simp [ingest, h]

/-- C7 amended witness at `text = "X"`. -/
theorem ingest_model_failure_sentinel_witness :
    ("X" : String) ≠ "" ∧
    (ingest (some "X") .err .ok .ok).written = [⟨"X", "Error", "AI analysis failed"⟩] ∧
    (ingest (some "X") .err .ok .ok).resp = .redirect :=
  ⟨by decide, (ingest_model_failure_sentinel "X" (by decide) .ok).1,
    (ingest_model_failure_sentinel "X" (by decide) .ok).2⟩

/-- C9: a model call that succeeds with an absent or empty `response` field
coalesces the raw text to `""`; with a successful store write the record
written is `(text, "Neutral", "")` — the `"Error"` sentinel is not used —
and the outcome is identical to that of a genuine model output
`"Neutral| "`, which also parses to `("Neutral", "")`. -/
theorem ingest_vacuous_ok_neutral (text : String) (h : text ≠ "") (f : StoreResult) :
    (ingest (some text) (.ok none) .ok f).written = [⟨text, "Neutral", ""⟩] ∧
    ingest (some text) (.ok (some "")) .ok f = ingest (some text) (.ok none) .ok f ∧
    ingest (some text) (.ok (some "Neutral| ")) .ok f =
      ingest (some text) (.ok none) .ok f := by
  have h0 : parse "" = ("Neutral", "") := by decide
  have h1 : parse "Neutral| " = ("Neutral", "") := by decide
  refine ⟨?_, ?_, ?_⟩ <;> simp [ingest, h, h0, h1]

/-- C9 witness at `text = "fine"`. -/
theorem ingest_vacuous_ok_neutral_witness :
    ("fine" : String) ≠ "" ∧
    ((ingest (some "fine") (.ok none) .ok .ok).written = [⟨"fine", "Neutral", ""⟩] ∧
      ingest (some "fine") (.ok (some "")) .ok .ok =
        ingest (some "fine") (.ok none) .ok .ok ∧
      ingest (some "fine") (.ok (some "Neutral| ")) .ok .ok =
        ingest (some "fine") (.ok none) .ok .ok) :=
  ⟨by decide, ingest_vacuous_ok_neutral "fine" (by decide) .ok⟩

/-! ### Claims C8 and C10: the aggregate counts -/

/-- C8: a record counts toward the positive, negative, or neutral bucket
exactly when its sentiment contains the bucket label `"Positive"`,
`"Negative"`, or `"Neutral"` as a case-sensitive substring (not equality),
with no mutual exclusivity; in particular sentiments `"Positive"`,
`"Very Positive indeed"`, `"Negative"`, `"Error"` yield counts `(2, 1, 0)`,
and a single `"PositiveNegative"` record counts in two buckets. -/
theorem summarize_substring_counts :
    (∀ results : List DBRow,
      summarize results =
        ( (results.filter
            (fun r => decide (ContainsSub (r.sentiment.getD "") "Positive"))).length
        , (results.filter
            (fun r => decide (ContainsSub (r.sentiment.getD "") "Negative"))).length
        , (results.filter
            (fun r => decide (ContainsSub (r.sentiment.getD "") "Neutral"))).length )) ∧
    summarize [⟨1, none, some "Positive", none⟩, ⟨2, none, some "Very Positive indeed", none⟩,
      ⟨3, none, some "Negative", none⟩, ⟨4, none, some "Error", none⟩] = (2, 1, 0) ∧
    summarize [⟨1, none, some "PositiveNegative", none⟩] = (1, 1, 0) := by
  refine ⟨?_, by decide, by decide⟩
  intro results
  simp only [summarize, jsIncludesS_eq_decide]

/-- C10: summarize is total on rows whose sentiment column is NULL — the
sentiment is coalesced to `""`, which contains no bucket label, so such a
row counts toward zero buckets; the three seed rows (inserted with
customer_text only) are exactly such rows and yield counts `(0, 0, 0)`. -/
theorem summarize_null_sentiment_zero_buckets :
    (∀ (results : List DBRow) (i : Nat) (ct sm : Option String),
      summarize (⟨i, ct, none, sm⟩ :: results) = summarize results) ∧
    summarize seedRows = (0, 0, 0) := by
  refine ⟨?_, by decide⟩
  intro results i ct sm
  have hP : jsIncludesS "" "Positive" = false := by decide
  have hN : jsIncludesS "" "Negative" = false := by decide
  have hU : jsIncludesS "" "Neutral" = false := by decide
  simp [summarize, hP, hN, hU]

end FeedbackApp
